import Mathlib

/-!
Shallow embedding of the live-telemetry relay core (`LiveRoom` in
`src/index.ts`): the sliding-window sample buffer, the observer socket hub,
the ingest handler, the viewer-subscription handler and the request router.

Modelling conventions:
* A wire timestamp string is represented by its `Date.parse` result:
  `none` stands for a string that parses to `NaN` (dropped sample), and
  `some t` stands for a finite epoch-millisecond value `t : Int`.
  `Date.parse` itself is a platform function outside this repository.
* WebSocket handles are opaque: they are modelled as `Nat` identifiers.
  The JavaScript `Set<WebSocket>` iterates in insertion order and is
  modelled as a duplicate-free insertion-ordered `List Nat`.
* `try { ws.send(msg) } catch {}` is modelled by a `sendOk : Nat → Bool`
  oracle saying which sends succeed; a failing send contributes no
  delivery and raises nothing.
* `request.json()` either throws (body not valid JSON) or yields the cast
  value; the unchecked TypeScript cast means any decoded body reaches the
  `!batch?.samples?.length` guard, whose failing cases (null batch,
  missing or empty samples array) all produce the same 400 response and
  are collapsed into `samples = []`.
-/

/-- 3-vector payload of a sample (`accel_mps2` / `gyro_rads`). The numeric
values are carried through untouched by the core, so they are modelled as
integers. -/
structure Vec3 where
  x : Int
  y : Int
  z : Int
deriving DecidableEq, Repr

/-- One wire sample of a `TelemetryBatch`. `t_gps_utc` is the capture-time
string represented by its `Date.parse` result (see module docstring). -/
structure Sample where
  t_gps_utc : Option Int
  seq : Int
  accel_mps2 : Vec3
  gyro_rads : Vec3
deriving DecidableEq, Repr

/-- `TelemetryBatch` from `src/index.ts`. -/
structure TelemetryBatch where
  session_id : String
  device_id : String
  samples : List Sample
deriving DecidableEq, Repr

/-- `BufferedSample = TelemetryBatch["samples"][number] & { t_ms: number }`:
a wire sample tagged with its parsed epoch time. The destructuring
`({ t_ms, ...rest }) => rest` that strips the internal field corresponds to
the projection `.sample`. -/
structure BufferedSample where
  sample : Sample
  t_ms : Int
deriving DecidableEq, Repr

/-- A message the room writes to an observer socket (before the single
`JSON.stringify`). The constructor encodes the wire `type` tag. -/
inductive Message where
  | samples (session_id : String) (device_id : String) (body : List Sample)
  | replay (window_ms : Int) (body : List Sample)
deriving DecidableEq, Repr

/-- Mutable state of one `LiveRoom` instance: the in-memory window buffer
and the set of live observer sockets. -/
structure RoomState where
  buffer : List BufferedSample
  sockets : List Nat
deriving DecidableEq, Repr

/-- The ingest request as seen by `handleIngest`: the HTTP method and the
body decoding outcome (`none` = `request.json()` threw). -/
structure IngestRequest where
  method : String
  body : Option TelemetryBatch
deriving DecidableEq, Repr

/-- The possible responses of `handleIngest`, named by the code's reply
strings; `ok` carries the `received` count of the success JSON body. -/
inductive IngestResponse where
  | methodNotAllowed
  | badJson
  | missingSamples
  | noValidTimestamps
  | ok (received : Nat)
deriving DecidableEq, Repr

/-- HTTP status attached to each `handleIngest` response. -/
def IngestResponse.status : IngestResponse → Nat
  | .methodNotAllowed => 405
  | .badJson => 400
  | .missingSamples => 400
  | .noValidTimestamps => 400
  | .ok _ => 200

namespace LiveRoom

/-- `WINDOW_MS = 30_000`. -/
def WINDOW_MS : Int := 30000

/-- `pruneBuffer(latestTsMs)`: keep the samples with
`t_ms >= latestTsMs - WINDOW_MS`. -/
def pruneBuffer (latestTsMs : Int) (buffer : List BufferedSample) :
    List BufferedSample :=
  buffer.filter (fun s => latestTsMs - WINDOW_MS ≤ s.t_ms)

/-- One attempted `try { ws.send(msg) } catch { }`: a delivery when the
send succeeds, nothing (and no propagated error) when it throws. -/
def trySend (sendOk : Nat → Bool) (msg : Message) (ws : Nat) :
    Option (Nat × Message) :=
  if sendOk ws then some (ws, msg) else none

/-- `broadcast(obj)`: serialize once and attempt a send to every socket in
insertion order, swallowing per-socket failures. Returns the room state
(the method touches no field) together with the successful deliveries. -/
def broadcast (sendOk : Nat → Bool) (st : RoomState) (msg : Message) :
    RoomState × List (Nat × Message) :=
  (st, st.sockets.filterMap (trySend sendOk msg))

/-- `Set.add`: append the socket unless already present. -/
def addSocket (ws : Nat) (sockets : List Nat) : List Nat :=
  if ws ∈ sockets then sockets else sockets ++ [ws]

/-- `Set.delete`, fired by a socket's own close/error listener. -/
def removeSocket (ws : Nat) (sockets : List Nat) : List Nat :=
  sockets.filter (fun w => w ≠ ws)

/-- `acceptViewerWebSocket()`: register the fresh server socket `newWs`
with the hub and immediately send it the single replay message holding the
window size and the buffer snapshot stripped of `t_ms`. -/
def acceptViewerWebSocket (newWs : Nat) (st : RoomState) :
    RoomState × Message :=
  ({ st with sockets := addSocket newWs st.sockets },
   Message.replay WINDOW_MS (st.buffer.map (fun b => b.sample)))

/-- One iteration of the parse-and-append loop: on a finite parse, fold the
timestamp into `latest` (`Math.max` from `-Infinity`, modelled by
`Option Int` with `none` for `-Infinity`) and push the tagged sample. -/
def parseStep (acc : Option Int × List BufferedSample) (s : Sample) :
    Option Int × List BufferedSample :=
  match s.t_gps_utc with
  | none => acc
  | some t =>
      (some (match acc.1 with | none => t | some l => max l t),
       acc.2 ++ [⟨s, t⟩])

/-- The whole parse loop of `handleIngest`: the final `latest` and
`newBuffered`. -/
def parseBatch (samples : List Sample) : Option Int × List BufferedSample :=
  samples.foldl parseStep (none, [])

/-- `handleIngest(request)`: validation chain, then append + prune +
broadcast + success response. Returns the response, the updated room state
and the message handed to `broadcast` (if any). -/
def handleIngest (req : IngestRequest) (st : RoomState) :
    IngestResponse × RoomState × Option Message :=
  if req.method ≠ "POST" then (.methodNotAllowed, st, none)
  else
    match req.body with
    | none => (.badJson, st, none)
    | some batch =>
        if batch.samples.isEmpty then (.missingSamples, st, none)
        else
          let parsed := parseBatch batch.samples
          let newBuffered := parsed.2
          if newBuffered.isEmpty then (.noValidTimestamps, st, none)
          else
            let latest := parsed.1.getD 0
            let buffer1 := st.buffer ++ newBuffered
            let buffer2 := pruneBuffer latest buffer1
            let msg := Message.samples batch.session_id batch.device_id
              (newBuffered.map (fun b => b.sample))
            (.ok newBuffered.length, { st with buffer := buffer2 }, some msg)

/-- Outcome of the `fetch` router: a 101 stream upgrade carrying the replay
message, a forwarded ingest, or the 404 fallthrough. -/
inductive FetchOutcome where
  | upgraded (replayMsg : Message)
  | ingested (resp : IngestResponse) (sent : Option Message)
  | notFound
deriving DecidableEq, Repr

/-- A request as seen by `LiveRoom.fetch`. -/
structure FetchRequest where
  method : String
  pathname : String
  upgradeHeader : Option String
  body : Option TelemetryBatch
deriving DecidableEq, Repr

/-- `toLowerCase()` as the router uses it: character-wise lowercasing
(ASCII is all the `"websocket"` comparison can distinguish). -/
def toLowerAscii (s : String) : String := String.mk (s.data.map Char.toLower)

/-- `upgrade && upgrade.toLowerCase() === "websocket"` (a present empty
header is falsy). -/
def isWebSocketUpgrade (h : Option String) : Bool :=
  match h with
  | none => false
  | some u => u ≠ "" && toLowerAscii u == "websocket"

/-- `LiveRoom.fetch`: route by the Upgrade header first, then by pathname.
`newWs` is the fresh server half of the `WebSocketPair` a subscription
would create. -/
def fetch (newWs : Nat) (req : FetchRequest) (st : RoomState) :
    FetchOutcome × RoomState :=
  if isWebSocketUpgrade req.upgradeHeader then
    let r := acceptViewerWebSocket newWs st
    (.upgraded r.2, r.1)
  else if req.pathname = "/ingest" then
    let r := handleIngest ⟨req.method, req.body⟩ st
    (.ingested r.1 r.2.2, r.2.1)
  else (.notFound, st)

end LiveRoom

namespace LiveRoom

/-- The `Math.max` accumulation of the parse loop, on `Option Int` with
`none` standing for the initial `-Infinity`. -/
def maxStep (o : Option Int) (t : Int) : Option Int :=
  some (match o with | none => t | some l => max l t)

/-- The finite parse results of a sample list, in batch order: the
timestamps that enter `newBuffered` / update `latest`. -/
def validTimes (ss : List Sample) : List Int :=
  ss.filterMap (fun s => s.t_gps_utc)

theorem parseStep_eq (acc : Option Int × List BufferedSample) (s : Sample) :
    parseStep acc s =
      match s.t_gps_utc with
      | none => acc
      | some t => (maxStep acc.1 t, acc.2 ++ [⟨s, t⟩]) := by
  cases h : s.t_gps_utc <;> simp [parseStep, maxStep, h]

theorem foldl_parseStep_fst (ss : List Sample) :
    ∀ acc : Option Int × List BufferedSample,
      (ss.foldl parseStep acc).1 = (validTimes ss).foldl maxStep acc.1 := by
  induction ss with
  | nil => intro acc; rfl
  | cons s rest ih =>
      intro acc
      cases h : s.t_gps_utc with
      | none =>
          simp [List.foldl_cons, parseStep_eq, h, validTimes,
            List.filterMap_cons, ih]
      | some t =>
          simp [List.foldl_cons, parseStep_eq, h, validTimes,
            List.filterMap_cons, ih, maxStep]

theorem foldl_parseStep_snd (ss : List Sample) :
    ∀ acc : Option Int × List BufferedSample,
      (ss.foldl parseStep acc).2 =
        acc.2 ++ ss.filterMap
          (fun s => s.t_gps_utc.map (fun t => BufferedSample.mk s t)) := by
  induction ss with
  | nil => intro acc; simp
  | cons s rest ih =>
      intro acc
      cases h : s.t_gps_utc with
      | none =>
          simp [List.foldl_cons, parseStep_eq, h, List.filterMap_cons, ih]
      | some t =>
          simp [List.foldl_cons, parseStep_eq, h, List.filterMap_cons, ih]

theorem parseBatch_fst (ss : List Sample) :
    (parseBatch ss).1 = (validTimes ss).foldl maxStep none :=
  foldl_parseStep_fst ss (none, [])

theorem parseBatch_snd (ss : List Sample) :
    (parseBatch ss).2 =
      ss.filterMap (fun s => s.t_gps_utc.map (fun t => BufferedSample.mk s t)) := by
  have h := foldl_parseStep_snd ss (none, [])
  simpa [parseBatch] using h

theorem parseBatch_snd_map_t (ss : List Sample) :
    (parseBatch ss).2.map (fun b => b.t_ms) = validTimes ss := by
  rw [parseBatch_snd]
  unfold validTimes
  induction ss with
  | nil => rfl
  | cons s rest ih =>
      cases h : s.t_gps_utc <;> simp [List.filterMap_cons, h, ih]

theorem parseBatch_snd_map_sample (ss : List Sample) :
    (parseBatch ss).2.map (fun b => b.sample) =
      ss.filter (fun s => s.t_gps_utc.isSome) := by
  rw [parseBatch_snd]
  induction ss with
  | nil => simp
  | cons s rest ih =>
      cases h : s.t_gps_utc <;>
        simp [List.filterMap_cons, List.filter_cons, h, ih]

theorem parseBatch_snd_nil_iff (ss : List Sample) :
    (parseBatch ss).2 = [] ↔ validTimes ss = [] := by
  constructor
  · intro h
    have := parseBatch_snd_map_t ss
    rw [h] at this
    exact this.symm
  · intro h
    have hm := parseBatch_snd_map_t ss
    rw [h] at hm
    exact List.map_eq_nil_iff.mp hm

theorem foldl_maxStep_some (ts : List Int) :
    ∀ l : Int, ts.foldl maxStep (some l) = some (ts.foldl max l) := by
  induction ts with
  | nil => intro l; rfl
  | cons t rest ih => intro l; simp [List.foldl_cons, maxStep, ih]

theorem le_foldl_max_init (ts : List Int) :
    ∀ l : Int, l ≤ ts.foldl max l := by
  induction ts with
  | nil => intro l; exact le_refl l
  | cons t rest ih =>
      intro l
      exact le_trans (le_max_left l t) (ih (max l t))

theorem le_foldl_max_of_mem (ts : List Int) :
    ∀ (l t : Int), t ∈ ts → t ≤ ts.foldl max l := by
  induction ts with
  | nil => intro l t h; cases h
  | cons a rest ih =>
      intro l t h
      rcases List.mem_cons.mp h with h | h
      · subst h
        exact le_trans (le_max_right l t) (le_foldl_max_init rest (max l t))
      · exact ih (max l a) t h

theorem foldl_max_mem (ts : List Int) :
    ∀ l : Int, ts.foldl max l = l ∨ ts.foldl max l ∈ ts := by
  induction ts with
  | nil => intro l; exact Or.inl rfl
  | cons a rest ih =>
      intro l
      rcases ih (max l a) with h | h
      · rcases max_choice l a with hm | hm
        · exact Or.inl (by rw [List.foldl_cons, h, hm])
        · exact Or.inr (by rw [List.foldl_cons, h, hm]; exact List.mem_cons_self a rest)
      · exact Or.inr (List.mem_cons_of_mem a h)

/-- The `latest` the parse loop computes is the maximum of the batch's
valid timestamps. -/
theorem parseBatch_fst_spec (ss : List Sample) (h : validTimes ss ≠ []) :
    ∃ L, (parseBatch ss).1 = some L ∧ L ∈ validTimes ss ∧
      ∀ t ∈ validTimes ss, t ≤ L := by
  obtain ⟨t0, rest, hts⟩ := List.exists_cons_of_ne_nil h
  refine ⟨rest.foldl max t0, ?_, ?_, ?_⟩
  · rw [parseBatch_fst, hts, List.foldl_cons]
    have : maxStep none t0 = some t0 := rfl
    rw [this, foldl_maxStep_some]
  · rw [hts]
    rcases foldl_max_mem rest t0 with h0 | h0
    · rw [h0]; exact List.mem_cons_self t0 rest
    · exact List.mem_cons_of_mem t0 h0
  · intro t ht
    rw [hts] at ht
    rcases List.mem_cons.mp ht with h0 | h0
    · subst h0; exact le_foldl_max_init rest t
    · exact le_foldl_max_of_mem rest t0 t h0

end LiveRoom

namespace LiveRoom

theorem parseBatch_nil : parseBatch [] = (none, []) := rfl

/-- The one shape `handleIngest` produces when every validation passes. -/
theorem handleIngest_success (req : IngestRequest) (batch : TelemetryBatch)
    (st : RoomState) (hm : req.method = "POST") (hb : req.body = some batch)
    (hnb : (parseBatch batch.samples).2 ≠ []) :
    handleIngest req st =
      (.ok (parseBatch batch.samples).2.length,
       RoomState.mk
         (pruneBuffer ((parseBatch batch.samples).1.getD 0)
           (st.buffer ++ (parseBatch batch.samples).2))
         st.sockets,
       some (Message.samples batch.session_id batch.device_id
         ((parseBatch batch.samples).2.map (fun b => b.sample)))) := by
  have hs : batch.samples ≠ [] := by
    intro h
    apply hnb
    rw [h, parseBatch_nil]
  simp [handleIngest, hm, hb, List.isEmpty_iff, hs, hnb]

/-- A success response implies every validation passed. -/
theorem handleIngest_ok_inv (req : IngestRequest) (st : RoomState) (n : Nat)
    (h : (handleIngest req st).1 = .ok n) :
    req.method = "POST" ∧
      ∃ batch, req.body = some batch ∧ (parseBatch batch.samples).2 ≠ [] := by
  by_cases hm : req.method = "POST"
  · cases hb : req.body with
    | none => simp [handleIngest, hm, hb] at h
    | some batch =>
        refine ⟨hm, batch, rfl, ?_⟩
        intro hnb
        by_cases hse : batch.samples.isEmpty <;>
          simp [handleIngest, hm, hb, hse, hnb] at h
  · simp [handleIngest, hm] at h

end LiveRoom

/-- A sample whose capture time parses to `t`; payload fields are zero. -/
def sampleAt (t : Int) : Sample := ⟨some t, 0, ⟨0, 0, 0⟩, ⟨0, 0, 0⟩⟩

/-- A sample whose capture-time string fails to parse (`Date.parse` NaN). -/
def badSample : Sample := ⟨none, 0, ⟨0, 0, 0⟩, ⟨0, 0, 0⟩⟩

/-- A batch of samples at the given capture times. -/
def batchAt (ts : List Int) : TelemetryBatch :=
  ⟨"session-1", "device-1", ts.map (fun t => sampleAt t)⟩

/-- A well-formed POST ingest request for `batchAt ts`. -/
def ingestAt (ts : List Int) : IngestRequest := ⟨"POST", some (batchAt ts)⟩

/-- A room state that is plainly non-empty, used to watch for unwanted
mutation on rejected requests. -/
def busyRoom : RoomState := ⟨[⟨sampleAt 7, 7⟩], [5]⟩

/-- Scenario A, first ingest: samples at t = 1000, 2000, 3000 into a cold
room. -/
def runA1 : RoomState :=
  (LiveRoom.handleIngest (ingestAt [1000, 2000, 3000]) ⟨[], []⟩).2.1

/-- Scenario A, second ingest: one sample at t = 3500. -/
def runA2 : RoomState := (LiveRoom.handleIngest (ingestAt [3500]) runA1).2.1

/-- Scenario A, third ingest: one sample at t = 40000. -/
def runA3 : RoomState := (LiveRoom.handleIngest (ingestAt [40000]) runA2).2.1

/-- Delayed-batch run, first ingest: samples at t = 40000 and t = 15000. -/
def runB1 : RoomState :=
  (LiveRoom.handleIngest (ingestAt [40000, 15000]) ⟨[], []⟩).2.1

/-- Delayed-batch run, second ingest: a late batch with samples at
t = 20000 and t = 5000, whose own latest (20000) is smaller than the
resident t = 40000. -/
def runB2 : RoomState :=
  (LiveRoom.handleIngest (ingestAt [20000, 5000]) runB1).2.1

/-- C1: after every successful ingest, every sample remaining in the window
buffer has parsed capture time at least `L - 30000`, where `L` is the
maximum valid parsed timestamp of the batch that triggered the prune (not a
running maximum over the buffer's history); and in the concrete run that
ingests samples at t = 1000, 2000, 3000, then t = 3500, then t = 40000, the
buffer after the last ingest holds exactly the sample at t = 40000. -/
theorem window_retention_after_successful_ingest :
    (∀ (req : IngestRequest) (batch : TelemetryBatch) (st : RoomState)
        (n : Nat) (L : Int),
        req.body = some batch →
        (LiveRoom.handleIngest req st).1 = .ok n →
        L ∈ LiveRoom.validTimes batch.samples →
        (∀ t ∈ LiveRoom.validTimes batch.samples, t ≤ L) →
        ∀ b ∈ (LiveRoom.handleIngest req st).2.1.buffer, L - 30000 ≤ b.t_ms)
    ∧ runA3.buffer = [⟨sampleAt 40000, 40000⟩] := by
  constructor
  · intro req batch st n L hb hok hmem hub b hbmem
    obtain ⟨hm, batch2, hb2, hnb⟩ := LiveRoom.handleIngest_ok_inv req st n hok
    have hbeq : batch2 = batch := by
      rw [hb] at hb2
      exact (Option.some_injective _ hb2).symm
    rw [hbeq] at hnb
    rw [LiveRoom.handleIngest_success req batch st hm hb hnb] at hbmem
    have hvt : LiveRoom.validTimes batch.samples ≠ [] := by
      intro h
      exact hnb ((LiveRoom.parseBatch_snd_nil_iff batch.samples).mpr h)
    obtain ⟨L0, hL0, hL0mem, hL0ub⟩ :=
      LiveRoom.parseBatch_fst_spec batch.samples hvt
    have hLeq : L0 = L := le_antisymm (hub L0 hL0mem) (hL0ub L hmem)
    have hmem2 := List.mem_filter.mp hbmem
    have hle : (LiveRoom.parseBatch batch.samples).1.getD 0 -
        LiveRoom.WINDOW_MS ≤ b.t_ms := by
      exact of_decide_eq_true hmem2.2
    rw [hL0, Option.getD_some, hLeq] at hle
    exact hle
  · decide

/-- A batch none of whose sample capture times parse. -/
def badBatch : TelemetryBatch := ⟨"session-1", "device-1", [badSample]⟩

/-- A batch mixing parseable and unparseable capture times. -/
def mixedBatch : TelemetryBatch :=
  ⟨"session-1", "device-1", [sampleAt 1000, badSample, sampleAt 2500]⟩

/-- C2: on every successful ingest the live-update message handed to the
hub is a "samples" message tagged with the batch's sessionId and deviceId,
and its sample list is exactly the validly-parsed samples of that batch in
batch order — never the whole buffer. -/
theorem live_update_carries_exactly_new_samples :
    ∀ (req : IngestRequest) (batch : TelemetryBatch) (st : RoomState)
      (n : Nat),
      req.body = some batch →
      (LiveRoom.handleIngest req st).1 = .ok n →
      (LiveRoom.handleIngest req st).2.2 =
        some (Message.samples batch.session_id batch.device_id
          (batch.samples.filter (fun s => s.t_gps_utc.isSome))) := by
  intro req batch st n hb hok
  obtain ⟨hm, batch2, hb2, hnb⟩ := LiveRoom.handleIngest_ok_inv req st n hok
  have hbeq : batch2 = batch := by
    rw [hb] at hb2
    exact (Option.some_injective _ hb2).symm
  rw [hbeq] at hnb
  rw [LiveRoom.handleIngest_success req batch st hm hb hnb]
  rw [LiveRoom.parseBatch_snd_map_sample]

/-- C2 witness: ingesting the single sample at t = 3500 into the room
already holding samples at t = 1000, 2000, 3000 broadcasts only the new
sample. -/
theorem live_update_carries_exactly_new_samples_witness :
    (ingestAt [3500]).body = some (batchAt [3500]) ∧
    (LiveRoom.handleIngest (ingestAt [3500]) runA1).1 = .ok 1 ∧
    (LiveRoom.handleIngest (ingestAt [3500]) runA1).2.2 =
      some (Message.samples (batchAt [3500]).session_id
        (batchAt [3500]).device_id
        ((batchAt [3500]).samples.filter (fun s => s.t_gps_utc.isSome))) :=
  ⟨rfl, by decide,
   live_update_carries_exactly_new_samples (ingestAt [3500]) (batchAt [3500])
     runA1 1 rfl (by decide)⟩

/-- C3: every subscribe registers the new connection with the hub, leaves
the buffer alone, and immediately produces exactly one replay message with
the window size 30000 and the buffer snapshot at subscription time in
buffer order, stripped of the internal `t_ms` tag — also when the buffer is
empty: an observer subscribing to a cold room gets `replay 30000 []`. -/
theorem subscribe_registers_and_replays_snapshot :
    (∀ (ws : Nat) (st : RoomState),
        (LiveRoom.acceptViewerWebSocket ws st).1.buffer = st.buffer ∧
        ws ∈ (LiveRoom.acceptViewerWebSocket ws st).1.sockets ∧
        (LiveRoom.acceptViewerWebSocket ws st).2 =
          Message.replay 30000 (st.buffer.map (fun b => b.sample)))
    ∧ LiveRoom.acceptViewerWebSocket 0 ⟨[], []⟩ =
        (⟨[], [0]⟩, Message.replay 30000 []) := by
  constructor
  · intro ws st
    refine ⟨rfl, ?_, rfl⟩
    by_cases h : ws ∈ st.sockets <;>
      simp [LiveRoom.acceptViewerWebSocket, LiveRoom.addSocket, h]
  · rfl

/-- C4: a POST whose decoded batch has samples but no parseable capture
time is rejected with the 4xx NoValidTimestamps response, and the room
state (buffer and observer set alike) is returned untouched. -/
theorem no_valid_timestamps_leaves_state_untouched :
    ∀ (req : IngestRequest) (batch : TelemetryBatch) (st : RoomState),
      req.method = "POST" → req.body = some batch → batch.samples ≠ [] →
      (∀ s ∈ batch.samples, s.t_gps_utc = none) →
      LiveRoom.handleIngest req st = (.noValidTimestamps, st, none) ∧
      IngestResponse.noValidTimestamps.status = 400 := by
  intro req batch st hm hb hs hall
  have hvt : LiveRoom.validTimes batch.samples = [] := by
    unfold LiveRoom.validTimes
    exact List.filterMap_eq_nil_iff.mpr hall
  have hnb : (LiveRoom.parseBatch batch.samples).2 = [] :=
    (LiveRoom.parseBatch_snd_nil_iff batch.samples).mpr hvt
  refine ⟨?_, rfl⟩
  simp [LiveRoom.handleIngest, hm, hb, List.isEmpty_iff, hs, hnb]

/-- C4 witness: a one-sample batch with an unparseable capture time hits a
room with a non-empty buffer and one observer; nothing changes. -/
theorem no_valid_timestamps_witness :
    ("POST" : String) = "POST" ∧
    (badBatch.samples ≠ []) ∧
    (∀ s ∈ badBatch.samples, s.t_gps_utc = none) ∧
    (LiveRoom.handleIngest ⟨"POST", some badBatch⟩ busyRoom =
        (.noValidTimestamps, busyRoom, none) ∧
      IngestResponse.noValidTimestamps.status = 400) :=
  ⟨rfl, by decide, by decide,
   no_valid_timestamps_leaves_state_untouched ⟨"POST", some badBatch⟩
     badBatch busyRoom rfl rfl (by decide) (by decide)⟩

/-- C5: the `received` field of every success response counts exactly the
batch's samples whose capture time parses to a finite value (the samples
appended to the buffer). -/
theorem received_counts_parsed_samples :
    ∀ (req : IngestRequest) (batch : TelemetryBatch) (st : RoomState)
      (n : Nat),
      req.body = some batch →
      (LiveRoom.handleIngest req st).1 = .ok n →
      n = batch.samples.countP (fun s => s.t_gps_utc.isSome) := by
  intro req batch st n hb hok
  obtain ⟨hm, batch2, hb2, hnb⟩ := LiveRoom.handleIngest_ok_inv req st n hok
  have hbeq : batch2 = batch := by
    rw [hb] at hb2
    exact (Option.some_injective _ hb2).symm
  rw [hbeq] at hnb
  rw [LiveRoom.handleIngest_success req batch st hm hb hnb] at hok
  have hn : (LiveRoom.parseBatch batch.samples).2.length = n := by
    simpa using hok
  rw [← hn]
  have hlen : (LiveRoom.parseBatch batch.samples).2.length =
      ((LiveRoom.parseBatch batch.samples).2.map (fun b => b.sample)).length :=
    (List.length_map _ _).symm
  rw [hlen, LiveRoom.parseBatch_snd_map_sample,
    ← List.countP_eq_length_filter]

/-- C5 witness: a batch with two parseable samples and one unparseable one
is acknowledged with received = 2. -/
theorem received_counts_parsed_samples_witness :
    (IngestRequest.mk "POST" (some mixedBatch)).body = some mixedBatch ∧
    (LiveRoom.handleIngest ⟨"POST", some mixedBatch⟩ ⟨[], []⟩).1 = .ok 2 ∧
    2 = mixedBatch.samples.countP (fun s => s.t_gps_utc.isSome) :=
  ⟨rfl, by decide,
   received_counts_parsed_samples ⟨"POST", some mixedBatch⟩ mixedBatch
     ⟨[], []⟩ 2 rfl (by decide)⟩

/-- C6: a failed send during a broadcast is swallowed at the point of
send: every other registered connection whose send succeeds still gets the
message (in hub order), the caller of `broadcast` sees no error (the
deliveries are returned, nothing is thrown), and the failing connection
stays registered — the room state comes back unchanged. Removal happens
only through `removeSocket`, the socket's own close/error listener. The
concrete conjunct shows socket 2 failing between sockets 1 and 3. -/
theorem broadcast_swallows_send_failures :
    (∀ (sendOk : Nat → Bool) (st : RoomState) (msg : Message),
        (LiveRoom.broadcast sendOk st msg).1 = st ∧
        (∀ w ∈ st.sockets, sendOk w = true →
          (w, msg) ∈ (LiveRoom.broadcast sendOk st msg).2) ∧
        (∀ d ∈ (LiveRoom.broadcast sendOk st msg).2,
          d.1 ∈ st.sockets ∧ d.2 = msg))
    ∧ LiveRoom.broadcast (fun w => w != 2) ⟨[], [1, 2, 3]⟩
        (Message.replay 30000 []) =
      (⟨[], [1, 2, 3]⟩,
       [(1, Message.replay 30000 []), (3, Message.replay 30000 [])]) := by
  constructor
  · intro sendOk st msg
    refine ⟨rfl, ?_, ?_⟩
    · intro w hw hok
      refine List.mem_filterMap.mpr ⟨w, hw, ?_⟩
      simp [LiveRoom.trySend, hok]
    · intro d hd
      obtain ⟨w, hw, hsend⟩ := List.mem_filterMap.mp hd
      unfold LiveRoom.trySend at hsend
      by_cases hok : sendOk w = true
      · rw [if_pos hok] at hsend
        obtain rfl := Option.some_injective _ hsend
        exact ⟨hw, rfl⟩
      · rw [if_neg hok] at hsend
        cases hsend
  · rfl

/-- C7 counterexample: the claim — that some room state and incoming batch
with a smaller latest timestamp make the prune evict a resident sample
strictly newer than every sample of the batch — is false: the prune keeps
every sample with `t_ms >= latest - 30000`, and a sample newer than the
whole batch in particular exceeds `latest`, so it always survives. -/
theorem newer_than_batch_eviction_refuted :
    (∃ (req : IngestRequest) (batch : TelemetryBatch) (st : RoomState)
        (n : Nat) (L : Int) (b : BufferedSample),
        req.body = some batch ∧
        (LiveRoom.handleIngest req st).1 = .ok n ∧
        L ∈ LiveRoom.validTimes batch.samples ∧
        (∀ t ∈ LiveRoom.validTimes batch.samples, t ≤ L) ∧
        (∃ c ∈ st.buffer, L < c.t_ms) ∧
        b ∈ st.buffer ∧
        (∀ t ∈ LiveRoom.validTimes batch.samples, t < b.t_ms) ∧
        b ∉ (LiveRoom.handleIngest req st).2.1.buffer) = False := by
  apply eq_false
  rintro ⟨req, batch, st, n, L, b, hb, hok, hLmem, hLub, hres, hbmem, hnewer,
    hout⟩
  apply hout
  obtain ⟨hm, batch2, hb2, hnb⟩ := LiveRoom.handleIngest_ok_inv req st n hok
  have hbeq : batch2 = batch := by
    rw [hb] at hb2
    exact (Option.some_injective _ hb2).symm
  rw [hbeq] at hnb
  rw [LiveRoom.handleIngest_success req batch st hm hb hnb]
  have hvt : LiveRoom.validTimes batch.samples ≠ [] := by
    intro h
    exact hnb ((LiveRoom.parseBatch_snd_nil_iff batch.samples).mpr h)
  obtain ⟨L0, hL0, hL0mem, hL0ub⟩ :=
    LiveRoom.parseBatch_fst_spec batch.samples hvt
  refine List.mem_filter.mpr ⟨List.mem_append_left _ hbmem, ?_⟩
  rw [hL0, Option.getD_some]
  have hlt : L0 < b.t_ms := hnewer L0 hL0mem
  have hw : LiveRoom.WINDOW_MS = 30000 := rfl
  exact decide_eq_true (show L0 - LiveRoom.WINDOW_MS ≤ b.t_ms by
    rw [hw]; omega)

/-- C7 (amended): a batch whose own latest valid timestamp is smaller than
timestamps already resident prunes with that smaller value; this can never
evict a resident sample strictly newer than every sample of the incoming
batch (a smaller cutoff only retains more), but it under-prunes: samples
more than 30000 ms older than the session's historical maximum — here the
t = 5000 sample arriving in the delayed batch while t = 40000 is resident —
stay in the buffer although a running-maximum cutoff would drop them. -/
theorem smaller_latest_keeps_newer_and_under_prunes :
    (∀ (req : IngestRequest) (batch : TelemetryBatch) (st : RoomState)
        (n : Nat) (b : BufferedSample),
        req.body = some batch →
        (LiveRoom.handleIngest req st).1 = .ok n →
        b ∈ st.buffer →
        (∀ t ∈ LiveRoom.validTimes batch.samples, t < b.t_ms) →
        b ∈ (LiveRoom.handleIngest req st).2.1.buffer)
    ∧ (BufferedSample.mk (sampleAt 5000) 5000 ∈ runB2.buffer ∧
       BufferedSample.mk (sampleAt 40000) 40000 ∈ runB2.buffer ∧
       (5000 : Int) < 40000 - LiveRoom.WINDOW_MS) := by
  constructor
  · intro req batch st n b hb hok hbmem hnewer
    obtain ⟨hm, batch2, hb2, hnb⟩ := LiveRoom.handleIngest_ok_inv req st n hok
    have hbeq : batch2 = batch := by
      rw [hb] at hb2
      exact (Option.some_injective _ hb2).symm
    rw [hbeq] at hnb
    rw [LiveRoom.handleIngest_success req batch st hm hb hnb]
    have hvt : LiveRoom.validTimes batch.samples ≠ [] := by
      intro h
      exact hnb ((LiveRoom.parseBatch_snd_nil_iff batch.samples).mpr h)
    obtain ⟨L0, hL0, hL0mem, hL0ub⟩ :=
      LiveRoom.parseBatch_fst_spec batch.samples hvt
    refine List.mem_filter.mpr ⟨List.mem_append_left _ hbmem, ?_⟩
    rw [hL0, Option.getD_some]
    have hlt : L0 < b.t_ms := hnewer L0 hL0mem
    have hw : LiveRoom.WINDOW_MS = 30000 := rfl
    exact decide_eq_true (show L0 - LiveRoom.WINDOW_MS ≤ b.t_ms by
      rw [hw]; omega)
  · exact ⟨by decide, by decide, by decide⟩

/-- C8: within the ingest chain (after the write-verb check, which runs
first), a body `request.json()` cannot decode is rejected with the
4xx MalformedInput ("Bad JSON") response and no state is mutated, while a
request whose body decodes proceeds past this step: its response is never
MalformedInput. -/
theorem undecodable_body_rejected :
    ∀ (req : IngestRequest) (st : RoomState),
      req.method = "POST" →
      ((req.body = none →
          LiveRoom.handleIngest req st = (.badJson, st, none) ∧
          400 ≤ IngestResponse.badJson.status ∧
          IngestResponse.badJson.status < 500) ∧
       (∀ batch, req.body = some batch →
          (LiveRoom.handleIngest req st).1 ≠ .badJson)) := by
  intro req st hm
  constructor
  · intro hb
    refine ⟨?_, by decide, by decide⟩
    simp [LiveRoom.handleIngest, hm, hb]
  · intro batch hb hcontra
    by_cases hse : batch.samples.isEmpty <;>
      by_cases hnb : (LiveRoom.parseBatch batch.samples).2.isEmpty <;>
        simp [LiveRoom.handleIngest, hm, hb, hse, hnb] at hcontra

/-- C8 witness: a POST whose body failed to decode bounces off a busy room
with Bad JSON and leaves it untouched. -/
theorem undecodable_body_rejected_witness :
    LiveRoom.handleIngest ⟨"POST", none⟩ busyRoom =
        (.badJson, busyRoom, none) ∧
      400 ≤ IngestResponse.badJson.status ∧
      IngestResponse.badJson.status < 500 :=
  (undecodable_body_rejected ⟨"POST", none⟩ busyRoom rfl).1 rfl

/-- C9: any ingest request whose method is not POST is refused with the
405 MethodNotAllowed response, and neither the window buffer nor the
observer set is mutated (the room state comes back whole). -/
theorem non_post_method_rejected :
    ∀ (req : IngestRequest) (st : RoomState),
      req.method ≠ "POST" →
      LiveRoom.handleIngest req st = (.methodNotAllowed, st, none) ∧
      IngestResponse.methodNotAllowed.status = 405 := by
  intro req st hm
  exact ⟨by simp [LiveRoom.handleIngest, hm], rfl⟩

/-- C9 witness: a GET carrying a perfectly good batch is still refused and
mutates nothing. -/
theorem non_post_method_rejected_witness :
    LiveRoom.handleIngest ⟨"GET", some (batchAt [1000])⟩ busyRoom =
        (.methodNotAllowed, busyRoom, none) ∧
      IngestResponse.methodNotAllowed.status = 405 :=
  non_post_method_rejected ⟨"GET", some (batchAt [1000])⟩ busyRoom (by decide)

/-- C10 (implicit): `fetch` classifies any request whose Upgrade header is
"websocket" case-insensitively as a viewer subscription, whatever its path
or method; the `/ingest` path check runs only when the upgrade test fails;
in particular a POST to `/ingest` carrying `Upgrade: websocket` is handled
as a subscription, not an ingest. -/
theorem upgrade_header_takes_precedence :
    (∀ (ws : Nat) (req : LiveRoom.FetchRequest) (st : RoomState)
        (u : String),
        req.upgradeHeader = some u → LiveRoom.toLowerAscii u = "websocket" →
        LiveRoom.fetch ws req st =
          (.upgraded
             (Message.replay 30000 (st.buffer.map (fun b => b.sample))),
           RoomState.mk st.buffer (LiveRoom.addSocket ws st.sockets)))
    ∧ (∀ (ws : Nat) (req : LiveRoom.FetchRequest) (st : RoomState),
        LiveRoom.isWebSocketUpgrade req.upgradeHeader = false →
        req.pathname = "/ingest" →
        LiveRoom.fetch ws req st =
          (.ingested (LiveRoom.handleIngest ⟨req.method, req.body⟩ st).1
             (LiveRoom.handleIngest ⟨req.method, req.body⟩ st).2.2,
           (LiveRoom.handleIngest ⟨req.method, req.body⟩ st).2.1))
    ∧ LiveRoom.fetch 0
        ⟨"POST", "/ingest", some "websocket", some (batchAt [1000])⟩
        ⟨[], []⟩ =
      (.upgraded (Message.replay 30000 []), ⟨[], [0]⟩) := by
  refine ⟨?_, ?_, ?_⟩
  · intro ws req st u hu hlow
    have hne : u ≠ "" := by
      intro h
      rw [h] at hlow
      exact absurd hlow (by decide)
    have hup : LiveRoom.isWebSocketUpgrade req.upgradeHeader = true := by
      rw [hu]
      simp [LiveRoom.isWebSocketUpgrade, hne, hlow]
    simp [LiveRoom.fetch, hup, LiveRoom.acceptViewerWebSocket,
      LiveRoom.WINDOW_MS]
  · intro ws req st hup hpath
    simp [LiveRoom.fetch, hup, hpath]
  · rfl
